import Mathlib

/-!
Shallow embedding of the Board component of perade/proxx
(src/services/preact-canvas/components/board/index.tsx).

The component keeps a grid of buttons (one per cell) in row-major order,
implements roving-tabindex keyboard focus, routes pointer/keyboard input
into an activation callback, and mirrors StateChange batches from the game
logic into the buttons' aria-labels and into the external animator.

The DOM / collaborator effects are modelled as explicit state:
  - each button carries its tabindex, its aria-label string, and its
    side-table (WeakMap) entry (x, y, Cell);
  - the platform focus (document.activeElement) is an Active value:
    null, a non-grid element (e.g. document.body), or a grid button index;
  - renderer.setFocus calls are modelled by the rendererFocus field
    ((-1, -1) means cleared, matching the source convention);
  - animator.updateCells calls are logged in animatorBatches;
  - props.onCellClick invocations are logged in clicks; the WeakMap lookup
    inside simulateClick uses a non-null assertion in the source, so a
    lookup miss passes undefined to the callback, modelled as none.
-/

namespace Proxx

/-- Cell value type from src gamelogic types, as used by this component. -/
structure Cell where
  flagged : Bool
  hasMine : Bool
  revealed : Bool
  touchingFlags : Nat
  touchingMines : Nat
deriving DecidableEq

/-- The neutral default cell installed at construction. -/
def defaultCell : Cell :=
  { flagged := false, hasMine := false, revealed := false,
    touchingFlags := 0, touchingMines := 0 }

/-- One grid button: its tabindex attribute, its aria-label attribute and
its side-table entry (x, y, last-known Cell). -/
structure GridButton where
  tabindex : Int
  ariaLabel : String
  data : Nat × Nat × Cell
deriving DecidableEq

/-- The possible values of document.activeElement as seen by the handlers:
null, some element that is not a grid button (body, table, ...), or the
grid button with the given row-major index. -/
inductive Active where
  | null
  | other
  | button (i : Nat)
deriving DecidableEq

/-- A StateChange notification; gridChanges is optional. -/
structure StateChange where
  gridChanges : Option (List (Nat × Nat × Cell))
deriving DecidableEq

/-- The observable state of the Board component and its collaborators. -/
@[ext]
structure BoardState where
  width : Nat
  height : Nat
  buttons : List GridButton
  currentTabableBtn : Nat
  activeElement : Active
  rendererFocus : Int × Int
  animatorBatches : List (List (Nat × Nat × Cell))
  clicks : List (Option (Nat × Nat × Cell) × Bool)
deriving DecidableEq

/-- In-place update of one list element, used to model mutation of a
single DOM button. Out-of-range indices leave the list unchanged. -/
def modifyAt {α : Type} : List α → Nat → (α → α) → List α
  | [], _, _ => []
  | a :: l, 0, f => f a :: l
  | a :: l, n+1, f => a :: modifyAt l n f

/-- Source _updateButton: recompute the aria-label from the Cell with the
source's precedence, and overwrite slot 2 of the side-table tuple.
The x and y parameters are unused by the source body as well. -/
def _updateButton (btn : GridButton) (cell : Cell) (x y : Nat) : GridButton :=
  let cellState : String :=
    if !cell.revealed then (if cell.flagged then "flag" else "hidden")
    else if cell.hasMine then "black hole"
    else if cell.touchingMines = 0 then "blank"
    else toString cell.touchingMines
  { btn with ariaLabel := cellState, data := (btn.data.1, btn.data.2.1, cell) }

/-- One button as built by the _createTable loop body: tabindex 0 only at
row 0, col 0; side-table entry (x, y, defaultCell); then _updateButton is
run on it with the default cell. -/
def mkButton (x y : Nat) : GridButton :=
  let button : GridButton :=
    { tabindex := if y = 0 ∧ x = 0 then 0 else -1
      ariaLabel := ""
      data := (x, y, defaultCell) }
  _updateButton button defaultCell x y

/-- Source _createTable nested loops: rows outer, columns inner, push in
order, giving row-major order. -/
def _createTable (width height : Nat) : List GridButton :=
  (List.range height).bind (fun row =>
    (List.range width).map (fun col => mkButton col row))

/-- Component state right after componentDidMount ran _createTable:
the roving tab stop is button 0 (cell (0,0)); nothing in the grid is
platform-focused yet; no renderer focus, no animator or click traffic. -/
def initialBoard (width height : Nat) : BoardState :=
  { width := width
    height := height
    buttons := _createTable width height
    currentTabableBtn := 0
    activeElement := Active.other
    rendererFocus := (-1, -1)
    animatorBatches := []
    clicks := [] }

/-- WeakMap lookup _additionalButtonData.get: only grid buttons are keys. -/
def lookupData (s : BoardState) : Active → Option (Nat × Nat × Cell)
  | Active.button i => (s.buttons.get? i).map (fun b => b.data)
  | _ => none

/-- Source removeFocusVisual: renderer.setFocus(-1, -1). -/
def removeFocusVisual (s : BoardState) : BoardState :=
  { s with rendererFocus := (-1, -1) }

/-- Source setFocusVisual: read (x, y) from the side-table and call
renderer.setFocus(x, y). Every caller passes a real grid button, so the
lookup-miss branch is unreachable. -/
def setFocusVisual (s : BoardState) (button : Nat) : BoardState :=
  match s.buttons.get? button with
  | some b => { s with rendererFocus := ((b.data.1 : Int), (b.data.2.1 : Int)) }
  | none => s

/-- Source setFocus: move the roving tabindex from the current tab stop to
the new button, platform-focus the new button (a blur fired on a
previously focused grid button clears the visual indicator, which the
final setFocusVisual immediately overwrites), and set the visual focus. -/
def setFocus (s : BoardState) (newFocusBtn : Nat) : BoardState :=
  setFocusVisual
    { s with buttons := modifyAt
               (modifyAt s.buttons s.currentTabableBtn (fun b => { b with tabindex := -1 }))
               newFocusBtn (fun b => { b with tabindex := 0 })
             currentTabableBtn := newFocusBtn
             activeElement := Active.button newFocusBtn }
    newFocusBtn

/-- Source simulateClick: fetch the side-table entry (non-null assertion,
so a miss yields undefined, modelled as none) and invoke onCellClick. -/
def simulateClick (s : BoardState) (button : Active) (alt : Bool) : BoardState :=
  { s with clicks := s.clicks ++ [(lookupData s button, alt)] }

/-- Source moveFocusByKey: resolve the platform-focused button through the
side-table; if it does not resolve, platform-focus the roving tab stop and
use its entry (the inner lookup uses a non-null assertion; the tab stop is
always a real button, so the default tuple branch is unreachable). Then
move by (h, v), with an out-of-field check that silently returns. -/
def moveFocusByKey (s : BoardState) (h v : Int) : BoardState :=
  let resolved :=
    match lookupData s s.activeElement with
    | some d => (s, d)
    | none =>
      ({ s with activeElement := Active.button s.currentTabableBtn },
        match lookupData s (Active.button s.currentTabableBtn) with
        | some d => d
        | none => (0, 0, defaultCell))
  let s1 := resolved.1
  let x := resolved.2.1
  let y := resolved.2.2.1
  let newX : Int := (x : Int) + h
  let newY : Int := (y : Int) + v
  if newX < 0 ∨ (s1.width : Int) ≤ newX ∨ newY < 0 ∨ (s1.height : Int) ≤ newY then
    s1
  else
    setFocus s1 (newX + newY * (s1.width : Int)).toNat

/-- Source moveFocusWithMouse (registered only on constrained devices):
if the event target is not a grid button, clear the visual indicator;
otherwise blur a differently-focused grid button (its blur listener clears
the visual indicator and platform focus falls back to the body) and then
delegate to setFocus on the hovered button. -/
def moveFocusWithMouse (s : BoardState) (target : Active) : BoardState :=
  match target with
  | Active.button t =>
    if (s.buttons.get? t).isSome then
      let s1 :=
        if (lookupData s s.activeElement).isSome ∧ s.activeElement ≠ Active.button t then
          removeFocusVisual { s with activeElement := Active.other }
        else s
      setFocus s1 t
    else removeFocusVisual s
  | _ => removeFocusVisual s

/-- Source onKeyDownOnTable: Enter and digit 8 activate the
platform-focused element (returning only when activeElement is null);
arrows and digits 9/7/5/0 move focus. No device-flag check appears here:
the listener is registered unconditionally in _createTable. -/
def onKeyDownOnTable (s : BoardState) (key : String) : BoardState :=
  if key = "Enter" ∨ key = "8" then
    match s.activeElement with
    | Active.null => s
    | ae => simulateClick s ae false
  else if key = "ArrowRight" ∨ key = "9" then moveFocusByKey s 1 0
  else if key = "ArrowLeft" ∨ key = "7" then moveFocusByKey s (-1) 0
  else if key = "ArrowUp" ∨ key = "5" then moveFocusByKey s 0 (-1)
  else if key = "ArrowDown" ∨ key = "0" then moveFocusByKey s 0 1
  else s

/-- Source onKeyUpOnTable: Tab re-anchors focus with a zero offset. -/
def onKeyUpOnTable (s : BoardState) (key : String) : BoardState :=
  if key = "Tab" then moveFocusByKey s 0 0 else s

/-- Source _onKeyUp, the window-level keyup listener. Only this handler is
gated on the device flags (isFeaturePhone or cellFocusMode, merged here
into constrainedDevice); it refocuses with a zero offset on digits. -/
def _onKeyUp (s : BoardState) (key : String) (constrainedDevice : Bool) : BoardState :=
  if constrainedDevice ∧ (key = "9" ∨ key = "7" ∨ key = "5" ∨ key = "0") then
    moveFocusByKey s 0 0
  else s

/-- Source onMouseUp: hit-test the event target against the side-table and
return on a miss; on constrained devices either focus the hit button (when
no grid button is platform-focused) or redirect the click to the
platform-focused button; event.button 2 selects the alternate click. -/
def onMouseUp (s : BoardState) (target : Active) (eventButton : Nat)
    (constrainedDevice : Bool) : BoardState :=
  match target with
  | Active.button t =>
    match s.buttons.get? t with
    | none => s
    | some _ =>
      let step :=
        if constrainedDevice then
          if (lookupData s s.activeElement).isSome then (s, s.activeElement)
          else (setFocus s t, Active.button t)
        else (s, Active.button t)
      if eventButton = 2 then simulateClick step.1 step.2 true
      else simulateClick step.1 step.2 false
  | _ => s

/-- The per-delta loop body of _doManualDomHandling: index the buttons
array at y * width + x and run _updateButton on the result. The source has
no bounds check; an index past the array yields undefined and the
immediate dereference in _updateButton throws, modelled as none. -/
def applyGridChanges (w : Nat) : List GridButton → List (Nat × Nat × Cell) →
    Option (List GridButton)
  | bs, [] => some bs
  | bs, (x, y, cell) :: rest =>
    if y * w + x < bs.length then
      applyGridChanges w (modifyAt bs (y * w + x) (fun b => _updateButton b cell x y)) rest
    else none

/-- Source _doManualDomHandling: return early when gridChanges is absent
(in the source, only undefined is falsy here; an empty array passes the
guard); otherwise update the DOM for every delta and then forward the
whole batch to animator.updateCells, logged in animatorBatches. -/
def _doManualDomHandling (s : BoardState) (stateChange : StateChange) :
    Option BoardState :=
  match stateChange.gridChanges with
  | none => some s
  | some gridChanges =>
    match applyGridChanges s.width s.buttons gridChanges with
    | some bs =>
      some { s with buttons := bs
                    animatorBatches := s.animatorBatches ++ [gridChanges] }
    | none => none

/-- The accessibility-description precedence table as the spec words it:
not revealed gives flag when flagged else hidden; revealed with a mine
gives black hole; revealed, no mine, zero touching mines gives blank;
otherwise the decimal string of touchingMines. -/
def cellDescriptionSpec (cell : Cell) : String :=
  if cell.revealed = false then (if cell.flagged = true then "flag" else "hidden")
  else if cell.hasMine = true then "black hole"
  else if cell.touchingMines = 0 then "blank"
  else Nat.repr cell.touchingMines

/-- Well-formedness of the grid layout: width * height buttons, the button
at row-major index i carrying coordinate (i mod width, i div width). -/
def gridWF (s : BoardState) : Prop :=
  s.buttons.length = s.width * s.height ∧
  ∀ i : Fin s.buttons.length,
    (s.buttons.get i).data.1 = i.val % s.width ∧
    (s.buttons.get i).data.2.1 = i.val / s.width

/-- Exactly one keyboard-reachable button: the roving tab stop has
tabindex 0 and every other button has tabindex -1. -/
def uniqueTabable (s : BoardState) : Prop :=
  s.currentTabableBtn < s.buttons.length ∧
  ∀ i : Fin s.buttons.length,
    (s.buttons.get i).tabindex = (if i.val = s.currentTabableBtn then 0 else -1)

instance (s : BoardState) : Decidable (gridWF s) := by
  unfold gridWF
  infer_instance

instance (s : BoardState) : Decidable (uniqueTabable s) := by
  unfold uniqueTabable
  infer_instance

/-- A 3 by 3 board whose cell (0,0) holds platform focus. -/
def sampleBoard : BoardState :=
  { initialBoard 3 3 with activeElement := Active.button 0 }

/-- A revealed cell touching three mines, used as concrete test data. -/
def testCell : Cell :=
  { flagged := false, hasMine := false, revealed := true,
    touchingFlags := 0, touchingMines := 3 }

theorem length_modifyAt {α : Type} (l : List α) (n : Nat) (f : α → α) :
    (modifyAt l n f).length = l.length := by
  induction l generalizing n with
  | nil => rfl
  | cons a l ih =>
    cases n with
    | zero => rfl
    | succ m => simp [modifyAt, ih]

theorem get?_modifyAt {α : Type} (l : List α) (n m : Nat) (f : α → α) :
    (modifyAt l n f).get? m = if m = n then (l.get? m).map f else l.get? m := by
  induction l generalizing n m with
  | nil => simp [modifyAt]
  | cons a l ih =>
    cases n with
    | zero =>
      cases m with
      | zero => simp [modifyAt]
      | succ m => simp [modifyAt]
    | succ n =>
      cases m with
      | zero => simp [modifyAt]
      | succ m => simpa [modifyAt] using ih n m

theorem modifyAt_modifyAt_same {α : Type} (l : List α) (n : Nat) (f g : α → α) :
    modifyAt (modifyAt l n f) n g = modifyAt l n (fun a => g (f a)) := by
  induction l generalizing n with
  | nil => rfl
  | cons a l ih =>
    cases n with
    | zero => rfl
    | succ m => simp [modifyAt, ih]

theorem createTable_succ (w n : Nat) :
    _createTable w (n + 1) =
      _createTable w n ++ (List.range w).map (fun x => mkButton x n) := by
  simp [_createTable, List.range_succ]

theorem length_createTable (w h : Nat) : (_createTable w h).length = h * w := by
  induction h with
  | zero => simp [_createTable]
  | succ n ih =>
    rw [createTable_succ, List.length_append, ih, List.length_map,
      List.length_range, Nat.succ_mul]

theorem get?_createTable {w h i : Nat} (hi : i < h * w) :
    (_createTable w h).get? i = some (mkButton (i % w) (i / w)) := by
  induction h with
  | zero => exact absurd hi (by omega)
  | succ n ih =>
    have hw : 0 < w := by
      rcases Nat.eq_zero_or_pos w with hw0 | hw0
      · subst hw0; omega
      · exact hw0
    rw [createTable_succ]
    rcases Nat.lt_or_ge i (n * w) with h1 | h1
    · rw [List.get?_append (by rw [length_createTable]; exact h1)]
      exact ih h1
    · rw [List.get?_append_right (by rw [length_createTable]; exact h1),
        length_createTable]
      obtain ⟨j, hjlt, rfl⟩ : ∃ j, j < w ∧ i = n * w + j :=
        ⟨i - n * w, by rw [Nat.succ_mul] at hi; omega, by omega⟩
      have e1 : n * w + j - n * w = j := by omega
      have e2 : (n * w + j) % w = j := by
        rw [Nat.mul_comm n w, Nat.mul_add_mod]; exact Nat.mod_eq_of_lt hjlt
      have e3 : (n * w + j) / w = n := by
        rw [Nat.mul_comm n w, Nat.mul_add_div hw, Nat.div_eq_of_lt hjlt]
        omega
      rw [e1, e2, e3, List.get?_map, List.get?_range hjlt]
      rfl

theorem updateButton_ariaLabel (btn : GridButton) (cell : Cell) (x y : Nat) :
    (_updateButton btn cell x y).ariaLabel = cellDescriptionSpec cell := by
  rcases cell with ⟨fl, hm, rv, tf, tm⟩
  cases fl <;> cases hm <;> cases rv <;>
    simp [_updateButton, cellDescriptionSpec] <;>
    split <;> rfl

theorem mkButton_ariaLabel (x y : Nat) :
    (mkButton x y).ariaLabel = cellDescriptionSpec defaultCell :=
  updateButton_ariaLabel _ defaultCell x y

theorem mkButton_data (x y : Nat) : (mkButton x y).data = (x, y, defaultCell) := rfl

theorem updateButton_data (btn : GridButton) (cell : Cell) (x y : Nat) :
    (_updateButton btn cell x y).data = (btn.data.1, btn.data.2.1, cell) := rfl

theorem updateButton_tabindex (btn : GridButton) (cell : Cell) (x y : Nat) :
    (_updateButton btn cell x y).tabindex = btn.tabindex := rfl

theorem doManualDomHandling_singleton (s : BoardState) (x y : Nat) (cell : Cell)
    (hidx : y * s.width + x < s.buttons.length) :
    _doManualDomHandling s { gridChanges := some [(x, y, cell)] } =
      some { s with
               buttons := modifyAt s.buttons (y * s.width + x)
                 (fun b => _updateButton b cell x y)
               animatorBatches := s.animatorBatches ++ [[(x, y, cell)]] } := by
  simp [_doManualDomHandling, applyGridChanges, hidx]

theorem doManualDomHandling_singleton_oob (s : BoardState) (x y : Nat) (cell : Cell)
    (hidx : ¬ y * s.width + x < s.buttons.length) :
    _doManualDomHandling s { gridChanges := some [(x, y, cell)] } = none := by
  simp [_doManualDomHandling, applyGridChanges, hidx]

/-- Claim C1: every cell delta applied by the sync bridge recomputes the
target element's accessibility description exactly by the precedence
table (not revealed: flag when flagged else hidden; revealed with a mine:
black hole; revealed, no mine, zero touching mines: blank; otherwise the
decimal string of touchingMines), and every element built at construction
carries the description of the neutral default cell. -/
theorem syncBridge_cellDescription :
    (∀ btn cell x y, (_updateButton btn cell x y).ariaLabel = cellDescriptionSpec cell) ∧
    (∀ w h i b, (initialBoard w h).buttons.get? i = some b →
      b.ariaLabel = cellDescriptionSpec defaultCell) ∧
    (∀ s x y cell s',
      _doManualDomHandling s { gridChanges := some [(x, y, cell)] } = some s' →
      (s'.buttons.get? (y * s.width + x)).map GridButton.ariaLabel =
        some (cellDescriptionSpec cell)) := by
  refine ⟨updateButton_ariaLabel, ?_, ?_⟩
  · intro w h i b hb
    have h1 : i < (initialBoard w h).buttons.length := (List.get?_eq_some.mp hb).1
    have h2 : (initialBoard w h).buttons.length = h * w := length_createTable w h
    have h3 : (initialBoard w h).buttons.get? i = some (mkButton (i % w) (i / w)) :=
      get?_createTable (h2 ▸ h1)
    rw [hb] at h3
    injection h3 with h4
    rw [h4]
    exact mkButton_ariaLabel _ _
  · intro s x y cell s' hs
    by_cases hidx : y * s.width + x < s.buttons.length
    · rw [doManualDomHandling_singleton s x y cell hidx] at hs
      injection hs with hs'
      rw [← hs']
      have hget := List.get?_eq_get hidx
      dsimp only
      rw [get?_modifyAt, if_pos rfl, hget]
      simp [updateButton_ariaLabel]
    · rw [doManualDomHandling_singleton_oob s x y cell hidx] at hs
      cases hs

/-- Closed instance of the C1 theorem: the element at index 3 of a fresh
2 by 2 board exists and its description is that of the default cell. -/
theorem syncBridge_cellDescription_witness :
    ((initialBoard 2 2).buttons.get? 3).map GridButton.ariaLabel =
      some (cellDescriptionSpec defaultCell) := by
  cases hb : (initialBoard 2 2).buttons.get? 3 with
  | none => exact absurd hb (by decide)
  | some b =>
    simpa using syncBridge_cellDescription.2.1 2 2 3 b hb

/-- Claim C2 counterexample: a StateChange carrying an empty gridChanges
array carries no deltas, yet it is not a no-op: the source guard only
rejects an absent gridChanges, so the empty batch is still forwarded to
the animator. -/
theorem emptyBatch_touches_animator :
    _doManualDomHandling (initialBoard 1 1) { gridChanges := some [] } ≠
      some (initialBoard 1 1) := by decide

/-- Claim C2 (amended): a notification with absent gridChanges is a no-op;
when gridChanges is present (an empty list included), each delta updates
the element at index y*width+x, overwriting that element's stored Cell,
and after the element updates the animator receives the entire original
batch exactly once. -/
theorem stateChange_batch_behavior :
    (∀ s, _doManualDomHandling s { gridChanges := none } = some s) ∧
    (∀ s gcs s', _doManualDomHandling s { gridChanges := some gcs } = some s' →
      s'.animatorBatches = s.animatorBatches ++ [gcs] ∧
      applyGridChanges s.width s.buttons gcs = some s'.buttons) ∧
    (∀ btn cell x y, (_updateButton btn cell x y).data.2.2 = cell ∧
      (_updateButton btn cell x y).data.1 = btn.data.1 ∧
      (_updateButton btn cell x y).data.2.1 = btn.data.2.1) ∧
    (∀ s x y cell, y * s.width + x < s.buttons.length →
      _doManualDomHandling s { gridChanges := some [(x, y, cell)] } =
        some { s with
                 buttons := modifyAt s.buttons (y * s.width + x)
                   (fun b => _updateButton b cell x y)
                 animatorBatches := s.animatorBatches ++ [[(x, y, cell)]] }) := by
  refine ⟨fun s => rfl, ?_, fun btn cell x y => ⟨rfl, rfl, rfl⟩,
    doManualDomHandling_singleton⟩
  intro s gcs s' hs
  unfold _doManualDomHandling at hs
  dsimp only at hs
  cases happ : applyGridChanges s.width s.buttons gcs with
  | none => rw [happ] at hs; cases hs
  | some bs =>
    rw [happ] at hs
    injection hs with hs'
    rw [← hs']
    exact ⟨rfl, rfl⟩

/-- Closed instance of the C2 theorem: a singleton in-bounds batch on a
fresh 2 by 2 board updates exactly index 1 and logs one animator call. -/
theorem stateChange_batch_behavior_witness :
    _doManualDomHandling (initialBoard 2 2) { gridChanges := some [(1, 0, testCell)] } =
      some { initialBoard 2 2 with
               buttons := modifyAt (initialBoard 2 2).buttons
                 (0 * (initialBoard 2 2).width + 1)
                 (fun b => _updateButton b testCell 1 0)
               animatorBatches := (initialBoard 2 2).animatorBatches ++
                 [[(1, 0, testCell)]] } :=
  stateChange_batch_behavior.2.2.2 (initialBoard 2 2) 1 0 testCell (by decide)

/-- Claim C9: setFocus is idempotent; a second setFocus with the same
target leaves the entire state unchanged. -/
theorem setFocus_idempotent (s : BoardState) (t : Nat) :
    setFocus (setFocus s t) t = setFocus s t := by
  have habs : ∀ (l : List GridButton) (n : Nat) (v w : Int),
      modifyAt (modifyAt l n (fun b => { b with tabindex := v })) n
        (fun b => { b with tabindex := w }) =
      modifyAt l n (fun b => { b with tabindex := w }) := by
    intro l n v w
    rw [modifyAt_modifyAt_same]
  simp only [setFocus, setFocusVisual, List.get?_eq_getElem?]
  cases hB : (modifyAt (modifyAt s.buttons s.currentTabableBtn
      (fun b => { b with tabindex := -1 })) t
      (fun b => { b with tabindex := 0 }))[t]? with
  | none => simp [hB, habs]
  | some b => simp [hB, habs]

theorem setFocus_proj (s : BoardState) (t : Nat) :
    (setFocus s t).buttons = modifyAt (modifyAt s.buttons s.currentTabableBtn
        (fun b => { b with tabindex := -1 })) t (fun b => { b with tabindex := 0 }) ∧
    (setFocus s t).currentTabableBtn = t ∧
    (setFocus s t).activeElement = Active.button t ∧
    (setFocus s t).width = s.width ∧
    (setFocus s t).height = s.height ∧
    (setFocus s t).animatorBatches = s.animatorBatches ∧
    (setFocus s t).clicks = s.clicks := by
  unfold setFocus setFocusVisual
  cases (modifyAt (modifyAt s.buttons s.currentTabableBtn
      (fun b => { b with tabindex := -1 })) t
      (fun b => { b with tabindex := 0 })).get? t <;>
    exact ⟨rfl, rfl, rfl, rfl, rfl, rfl, rfl⟩

theorem length_setFocus (s : BoardState) (t : Nat) :
    (setFocus s t).buttons.length = s.buttons.length := by
  rw [(setFocus_proj s t).1, length_modifyAt, length_modifyAt]

theorem get?_setFocus_data (s : BoardState) (t i : Nat) :
    ((setFocus s t).buttons.get? i).map (fun b => b.data) =
      (s.buttons.get? i).map (fun b => b.data) := by
  rw [(setFocus_proj s t).1, get?_modifyAt]
  by_cases h1 : i = t
  · rw [if_pos h1, get?_modifyAt]
    by_cases h2 : i = s.currentTabableBtn
    · rw [if_pos h2]; cases s.buttons.get? i <;> rfl
    · rw [if_neg h2]; cases s.buttons.get? i <;> rfl
  · rw [if_neg h1, get?_modifyAt]
    by_cases h2 : i = s.currentTabableBtn
    · rw [if_pos h2]; cases s.buttons.get? i <;> rfl
    · rw [if_neg h2]

theorem setFocus_renderer_some (s : BoardState) (t : Nat) (b : GridButton)
    (hb : s.buttons.get? t = some b) :
    (setFocus s t).rendererFocus = ((b.data.1 : Int), (b.data.2.1 : Int)) := by
  unfold setFocus setFocusVisual
  rw [get?_modifyAt, if_pos rfl, get?_modifyAt]
  by_cases hc : t = s.currentTabableBtn
  · rw [if_pos hc, hb]; rfl
  · rw [if_neg hc, hb]; rfl

theorem setFocus_irrel (s : BoardState) (ae : Active) (rf : Int × Int) (t : Nat)
    (ht : t < s.buttons.length) :
    setFocus { s with activeElement := ae, rendererFocus := rf } t = setFocus s t := by
  have hlen2 : t < (modifyAt (modifyAt s.buttons s.currentTabableBtn
      (fun b => { b with tabindex := -1 })) t
      (fun b => { b with tabindex := 0 })).length := by
    rw [length_modifyAt, length_modifyAt]; exact ht
  have hbb := List.get?_eq_get hlen2
  unfold setFocus setFocusVisual
  dsimp only
  rw [hbb]

/-- Claim C10: applying a batch presumes in-bounds coordinates; an
in-bounds singleton delta succeeds, while a delta whose row-major index
falls past the buttons array makes the handler throw (none) instead of
degrading to a silent no-op. -/
theorem syncBridge_bounds_precondition (s : BoardState) (x y : Nat) (cell : Cell)
    (hlen : s.buttons.length = s.width * s.height) :
    (x < s.width → y < s.height →
      (_doManualDomHandling s { gridChanges := some [(x, y, cell)] }).isSome) ∧
    (s.buttons.length ≤ y * s.width + x →
      _doManualDomHandling s { gridChanges := some [(x, y, cell)] } = none) := by
  constructor
  · intro hx hy
    have hidx : y * s.width + x < s.buttons.length := by
      rw [hlen]
      calc y * s.width + x < y * s.width + s.width := by omega
        _ = (y + 1) * s.width := by ring
        _ ≤ s.height * s.width := Nat.mul_le_mul_right _ (by omega)
        _ = s.width * s.height := Nat.mul_comm _ _
    rw [doManualDomHandling_singleton s x y cell hidx]
    rfl
  · intro hge
    exact doManualDomHandling_singleton_oob s x y cell (by omega)

/-- Closed instance of the C10 theorem on a 2 by 2 board: delta (1,1)
succeeds, delta (0,2) (index 4, past the 4-element array) throws. -/
theorem syncBridge_bounds_precondition_witness :
    (_doManualDomHandling (initialBoard 2 2)
      { gridChanges := some [(1, 1, testCell)] }).isSome ∧
    _doManualDomHandling (initialBoard 2 2)
      { gridChanges := some [(0, 2, testCell)] } = none := by
  constructor
  · exact (syncBridge_bounds_precondition (initialBoard 2 2) 1 1 testCell
      (by decide)).1 (by decide) (by decide)
  · exact (syncBridge_bounds_precondition (initialBoard 2 2) 0 2 testCell
      (by decide)).2 (by decide)

/-- Claim C4: at construction exactly one button (the one at position
(0,0)) is keyboard-reachable (tabindex 0) while all others carry tabindex
-1, and every setFocus transition preserves this cardinality-one
property. -/
theorem roving_tabindex_invariant :
    (∀ w h, 0 < w → 0 < h →
      uniqueTabable (initialBoard w h) ∧
      (initialBoard w h).currentTabableBtn = 0 ∧
      ((initialBoard w h).buttons.get? 0).map (fun b => (b.data.1, b.data.2.1)) =
        some (0, 0)) ∧
    (∀ s t, uniqueTabable s → t < s.buttons.length → uniqueTabable (setFocus s t)) := by
  constructor
  · intro w h hw hh
    have hlen : (initialBoard w h).buttons.length = h * w := length_createTable w h
    refine ⟨⟨?_, ?_⟩, rfl, ?_⟩
    · rw [hlen]
      exact Nat.mul_pos hh hw
    · intro i
      have hiv : i.val < h * w := hlen ▸ i.isLt
      have h3 : (initialBoard w h).buttons.get? i.val =
          some (mkButton (i.val % w) (i.val / w)) := get?_createTable hiv
      have h4 : (initialBoard w h).buttons.get? i.val =
          some ((initialBoard w h).buttons.get i) := by
        rw [List.get?_eq_get i.isLt]
      rw [h4] at h3
      injection h3 with h5
      rw [h5]
      show (if (i.val / w = 0 ∧ i.val % w = 0) then (0 : Int) else -1) = _
      by_cases h0 : i.val = 0
      · rw [h0]
        simp [initialBoard]
      · have hno : ¬ (i.val / w = 0 ∧ i.val % w = 0) := by
          rintro ⟨hd, hm⟩
          have := Nat.div_add_mod i.val w
          rw [hd, hm] at this
          omega
        rw [if_neg hno, if_neg (by simpa [initialBoard] using h0)]
    · have h3 : (initialBoard w h).buttons.get? 0 =
          some (mkButton (0 % w) (0 / w)) := get?_createTable (Nat.mul_pos hh hw)
      rw [h3]
      simp [mkButton_data, Nat.zero_mod, Nat.zero_div]
  · intro s t hu ht
    obtain ⟨hcur, hall⟩ := hu
    constructor
    · rw [(setFocus_proj s t).2.1, length_setFocus]
      exact ht
    · intro i
      have hlen := length_setFocus s t
      have hiv : i.val < s.buttons.length := hlen ▸ i.isLt
      have h4 : ((setFocus s t).buttons.get? i.val).map (fun b => b.tabindex) =
          some (((setFocus s t).buttons.get i).tabindex) := by
        rw [List.get?_eq_get i.isLt]
        rfl
      have h5 : ∀ j, j < s.buttons.length →
          ((setFocus s t).buttons.get? j).map (fun b => b.tabindex) =
            some (if j = t then 0 else -1) := by
        intro j hj
        have hgj : s.buttons.get? j = some (s.buttons.get ⟨j, hj⟩) :=
          List.get?_eq_get hj
        rw [(setFocus_proj s t).1, get?_modifyAt]
        by_cases h1 : j = t
        · rw [if_pos h1, get?_modifyAt]
          by_cases h2 : j = s.currentTabableBtn
          · rw [if_pos h2, hgj, if_pos h1]; rfl
          · rw [if_neg h2, hgj, if_pos h1]; rfl
        · rw [if_neg h1, get?_modifyAt]
          by_cases h2 : j = s.currentTabableBtn
          · rw [if_pos h2, hgj, if_neg h1]; rfl
          · rw [if_neg h2, hgj, if_neg h1]
            have h6 := hall ⟨j, hj⟩
            rw [show ((⟨j, hj⟩ : Fin s.buttons.length) : Nat) = j from rfl] at h6
            simp only [Option.map_some']
            rw [h6, if_neg h2]
      have h7 := h4.symm.trans (h5 i.val hiv)
      injection h7 with h8
      rw [h8, (setFocus_proj s t).2.1]
/-- Closed instance of the C4 theorem: the invariant holds on a fresh 2 by
2 board and is preserved by a setFocus onto button 3. -/
theorem roving_tabindex_invariant_witness :
    uniqueTabable (initialBoard 2 2) ∧
    uniqueTabable (setFocus (initialBoard 2 2) 3) := by
  have h1 := (roving_tabindex_invariant.1 2 2 (by decide) (by decide)).1
  exact ⟨h1, roving_tabindex_invariant.2 (initialBoard 2 2) 3 h1 (by decide)⟩

theorem moveFocusByKey_eq (s : BoardState) (i : Nat) (dx dy : Int)
    (ha : s.activeElement = Active.button i) (hi : i < s.buttons.length) :
    moveFocusByKey s dx dy =
      (if ((s.buttons.get ⟨i, hi⟩).data.1 : Int) + dx < 0 ∨
          (s.width : Int) ≤ ((s.buttons.get ⟨i, hi⟩).data.1 : Int) + dx ∨
          ((s.buttons.get ⟨i, hi⟩).data.2.1 : Int) + dy < 0 ∨
          (s.height : Int) ≤ ((s.buttons.get ⟨i, hi⟩).data.2.1 : Int) + dy then s
       else setFocus s ((((s.buttons.get ⟨i, hi⟩).data.1 : Int) + dx) +
         (((s.buttons.get ⟨i, hi⟩).data.2.1 : Int) + dy) * (s.width : Int)).toNat) := by
  have hb : s.buttons.get? i = some (s.buttons.get ⟨i, hi⟩) := List.get?_eq_get hi
  unfold moveFocusByKey
  rw [ha]
  simp only [lookupData]
  rw [hb]
  dsimp only [Option.map_some']

/-- Claim C3: with a grid button platform-focused at coordinate
(i mod width, i div width), moveFocusByKey moves the roving target,
platform focus and visual indicator to (x+dx, y+dy) whenever that point
lies inside the field, and is a complete no-op otherwise, for every
position and offset. -/
theorem moveFocusByKey_bounds (s : BoardState) (i : Nat) (dx dy : Int)
    (hwf : gridWF s) (ha : s.activeElement = Active.button i)
    (hi : i < s.buttons.length) :
    (0 ≤ (i % s.width : Int) + dx → (i % s.width : Int) + dx < (s.width : Int) →
     0 ≤ (i / s.width : Int) + dy → (i / s.width : Int) + dy < (s.height : Int) →
       (moveFocusByKey s dx dy).currentTabableBtn =
           ((i % s.width : Int) + dx).toNat + ((i / s.width : Int) + dy).toNat * s.width ∧
         (moveFocusByKey s dx dy).activeElement = Active.button
           (((i % s.width : Int) + dx).toNat + ((i / s.width : Int) + dy).toNat * s.width) ∧
         (moveFocusByKey s dx dy).rendererFocus =
           ((i % s.width : Int) + dx, (i / s.width : Int) + dy) ∧
         ((moveFocusByKey s dx dy).buttons.get?
             (((i % s.width : Int) + dx).toNat +
               ((i / s.width : Int) + dy).toNat * s.width)).map
             (fun b => (b.data.1, b.data.2.1)) =
           some (((i % s.width : Int) + dx).toNat, ((i / s.width : Int) + dy).toNat)) ∧
    (((i % s.width : Int) + dx < 0 ∨ (s.width : Int) ≤ (i % s.width : Int) + dx ∨
      (i / s.width : Int) + dy < 0 ∨ (s.height : Int) ≤ (i / s.width : Int) + dy) →
      moveFocusByKey s dx dy = s) := by
  have hx : (s.buttons.get ⟨i, hi⟩).data.1 = i % s.width := (hwf.2 ⟨i, hi⟩).1
  have hy : (s.buttons.get ⟨i, hi⟩).data.2.1 = i / s.width := (hwf.2 ⟨i, hi⟩).2
  have hmv := moveFocusByKey_eq s i dx dy ha hi
  rw [hx, hy] at hmv
  push_cast at hmv
  constructor
  · intro h1 h2 h3 h4
    rw [hmv, if_neg (by omega)]
    set nx := ((i % s.width : Int) + dx).toNat
    set ny := ((i / s.width : Int) + dy).toNat
    have ex : ((i % s.width : Int) + dx) = (nx : Int) := (Int.toNat_of_nonneg h1).symm
    have ey : ((i / s.width : Int) + dy) = (ny : Int) := (Int.toNat_of_nonneg h3).symm
    have hnxw : nx < s.width := by omega
    have hnyh : ny < s.height := by omega
    have hw0 : 0 < s.width := by omega
    have eidx : ((i % s.width : Int) + dx +
        ((i / s.width : Int) + dy) * (s.width : Int)).toNat = nx + ny * s.width := by
      rw [ex, ey, ← Nat.cast_mul, ← Nat.cast_add, Int.toNat_natCast]
    rw [eidx]
    have hidxlt : nx + ny * s.width < s.buttons.length := by
      rw [hwf.1]
      calc nx + ny * s.width < s.width + ny * s.width := by omega
        _ = (ny + 1) * s.width := by ring
        _ ≤ s.height * s.width := Nat.mul_le_mul_right _ (by omega)
        _ = s.width * s.height := Nat.mul_comm _ _
    have hb' : s.buttons.get? (nx + ny * s.width) =
        some (s.buttons.get ⟨nx + ny * s.width, hidxlt⟩) := List.get?_eq_get hidxlt
    have hcoord1 : (s.buttons.get ⟨nx + ny * s.width, hidxlt⟩).data.1 = nx := by
      have hc := (hwf.2 ⟨nx + ny * s.width, hidxlt⟩).1
      rw [hc]
      show (nx + ny * s.width) % s.width = nx
      rw [Nat.add_mul_mod_self_right]
      exact Nat.mod_eq_of_lt hnxw
    have hcoord2 : (s.buttons.get ⟨nx + ny * s.width, hidxlt⟩).data.2.1 = ny := by
      have hc := (hwf.2 ⟨nx + ny * s.width, hidxlt⟩).2
      rw [hc]
      show (nx + ny * s.width) / s.width = ny
      rw [Nat.add_mul_div_right _ _ hw0, Nat.div_eq_of_lt hnxw]
      omega
    refine ⟨(setFocus_proj s _).2.1, ?_, ?_, ?_⟩
    · rw [(setFocus_proj s _).2.2.1]
    · rw [setFocus_renderer_some s _ _ hb', hcoord1, hcoord2, ex, ey]
    · have hdd := get?_setFocus_data s (nx + ny * s.width) (nx + ny * s.width)
      rw [hb'] at hdd
      cases hx2 : (setFocus s (nx + ny * s.width)).buttons.get? (nx + ny * s.width) with
      | none => rw [hx2] at hdd; cases hdd
      | some b2 =>
        rw [hx2] at hdd
        simp only [Option.map_some'] at hdd ⊢
        injection hdd with hdd2
        rw [hdd2, hcoord1, hcoord2]
  · intro hcond
    rw [hmv, if_pos hcond]

/-- Closed instance of the C3 theorem on a 3 by 3 board focused at (0,0):
moving right lands on button 1, moving left is a no-op. -/
theorem moveFocusByKey_bounds_witness :
    (moveFocusByKey sampleBoard 1 0).currentTabableBtn = 1 ∧
    moveFocusByKey sampleBoard (-1) 0 = sampleBoard := by
  constructor
  · have h := (moveFocusByKey_bounds sampleBoard 0 1 0 (by decide) rfl
      (by decide)).1 (by decide) (by decide) (by decide) (by decide)
    have h1 := h.1
    simp only [sampleBoard, initialBoard] at h1 ⊢
    omega
  · exact (moveFocusByKey_bounds sampleBoard 0 (-1) 0 (by decide) rfl
      (by decide)).2 (by decide)

/-- Claim C5 counterexample: on a 3 by 3 board with platform focus and
roving target on button 0 (cell (0,0)), a hover over button 8 (cell
(2,2)) moves the roving target and the platform focus to (2,2), because
moveFocusWithMouse ends in a full setFocus; the claim that only the
visual indicator moves is false on the code. -/
theorem hover_moves_roving_target :
    (moveFocusWithMouse sampleBoard (Active.button 8)).currentTabableBtn = 8 ∧
    sampleBoard.currentTabableBtn = 0 ∧
    (moveFocusWithMouse sampleBoard (Active.button 8)).activeElement =
      Active.button 8 ∧
    sampleBoard.activeElement = Active.button 0 := by decide

/-- Claim C5 (amended): a hover over a grid element delegates to setFocus,
moving the visual indicator, the platform focus and the roving target to
that element (blurring a differently-focused grid button on the way); a
hover that is over no grid element only clears the visual indicator. -/
theorem hover_delegates_setFocus :
    (∀ s, moveFocusWithMouse s Active.other = removeFocusVisual s ∧
          moveFocusWithMouse s Active.null = removeFocusVisual s) ∧
    (∀ s t, t < s.buttons.length →
      moveFocusWithMouse s (Active.button t) = setFocus s t) := by
  refine ⟨fun s => ⟨rfl, rfl⟩, ?_⟩
  intro s t ht
  have hsome : (s.buttons.get? t).isSome = true := by
    rw [List.get?_eq_get ht]; rfl
  unfold moveFocusWithMouse
  dsimp only
  rw [if_pos hsome]
  by_cases hc : (lookupData s s.activeElement).isSome = true ∧
      s.activeElement ≠ Active.button t
  · rw [if_pos hc]
    exact setFocus_irrel s Active.other (-1, -1) t ht
  · rw [if_neg hc]

/-- Closed instance of the C5 amended theorem: the hover of the
counterexample state equals a plain setFocus onto button 8. -/
theorem hover_delegates_setFocus_witness :
    moveFocusWithMouse sampleBoard (Active.button 8) = setFocus sampleBoard 8 :=
  hover_delegates_setFocus.2 sampleBoard 8 (by decide)

/-- Claim C6: a pointer-up over grid button t activates with the alternate
flag exactly when event button 2 was used; on a constrained device the
platform-focused grid button is activated instead of the hit one, and
focus moves to the hit button only when no grid button holds platform
focus. -/
theorem mouseUp_activation (s : BoardState) (t : Nat) (eventButton : Nat)
    (ht : t < s.buttons.length) :
    (onMouseUp s (Active.button t) eventButton false =
      simulateClick s (Active.button t) (decide (eventButton = 2))) ∧
    (∀ a, s.activeElement = Active.button a → a < s.buttons.length →
      onMouseUp s (Active.button t) eventButton true =
        simulateClick s (Active.button a) (decide (eventButton = 2))) ∧
    (lookupData s s.activeElement = none →
      onMouseUp s (Active.button t) eventButton true =
        simulateClick (setFocus s t) (Active.button t) (decide (eventButton = 2))) ∧
    (∀ s1 el alt, (simulateClick s1 el alt).clicks =
      s1.clicks ++ [(lookupData s1 el, alt)]) := by
  have hb : s.buttons.get? t = some (s.buttons.get ⟨t, ht⟩) := List.get?_eq_get ht
  refine ⟨?_, ?_, ?_, fun s1 el alt => rfl⟩
  · unfold onMouseUp
    dsimp only
    rw [hb]
    by_cases he : eventButton = 2
    · rw [he]; rfl
    · rw [show (decide (eventButton = 2)) = false from by simp [he]]
      dsimp only
      rw [if_neg he]
      rfl
  · intro a haa halt
    have hba : s.buttons.get? a = some (s.buttons.get ⟨a, halt⟩) := List.get?_eq_get halt
    have hlk : (lookupData s s.activeElement).isSome = true := by
      rw [haa]
      show ((s.buttons.get? a).map (fun b => b.data)).isSome = true
      rw [hba]; rfl
    unfold onMouseUp
    dsimp only
    rw [hb]
    dsimp only
    rw [if_pos hlk, haa]
    by_cases he : eventButton = 2
    · rw [he]; rfl
    · rw [show (decide (eventButton = 2)) = false from by simp [he]]
      rw [if_neg he]
      rfl
  · intro hnone
    have hlk : ¬ ((lookupData s s.activeElement).isSome = true) := by
      rw [hnone]; simp
    unfold onMouseUp
    dsimp only
    rw [hb]
    dsimp only
    rw [if_neg hlk]
    by_cases he : eventButton = 2
    · rw [he]; rfl
    · rw [show (decide (eventButton = 2)) = false from by simp [he]]
      rw [if_neg he]
      rfl

/-- Closed instance of the C6 theorem: a secondary pointer-up on button 14
of a fresh 4 by 4 board (no grid focus) focuses and activates it with the
alternate flag. -/
theorem mouseUp_activation_witness :
    onMouseUp (initialBoard 4 4) (Active.button 14) 2 true =
      simulateClick (setFocus (initialBoard 4 4) 14) (Active.button 14)
        (decide (2 = 2)) :=
  (mouseUp_activation (initialBoard 4 4) 14 2 (by decide)).2.2.1 (by decide)

/-- Claim C7 counterexample: the digit keys are not gated on the
constrained-device flags. The keydown listener is registered
unconditionally in _createTable, and onKeyDownOnTable itself consults no
flag, so on a non-constrained device digit 9 still moves focus: from
(0,0) on a 3 by 3 board it moves the roving target and platform focus to
button 1. -/
theorem digitKeys_active_unconstrained :
    (onKeyDownOnTable sampleBoard "9").currentTabableBtn = 1 ∧
    sampleBoard.currentTabableBtn = 0 ∧
    (onKeyDownOnTable sampleBoard "9").activeElement = Active.button 1 := by decide

/-- Claim C7 (amended): in the table keydown handler the digit keys
9/7/5/0/8 behave exactly like ArrowRight/ArrowLeft/ArrowUp/ArrowDown/Enter
on every device; only the window-level keyup handler is gated on the
device flags, and it performs a zero-offset refocus for digits 9/7/5/0. -/
theorem digitKeys_device_independent :
    (∀ s, onKeyDownOnTable s "9" = onKeyDownOnTable s "ArrowRight" ∧
          onKeyDownOnTable s "7" = onKeyDownOnTable s "ArrowLeft" ∧
          onKeyDownOnTable s "5" = onKeyDownOnTable s "ArrowUp" ∧
          onKeyDownOnTable s "0" = onKeyDownOnTable s "ArrowDown" ∧
          onKeyDownOnTable s "8" = onKeyDownOnTable s "Enter") ∧
    (∀ s key, _onKeyUp s key false = s) ∧
    (∀ s, _onKeyUp s "9" true = moveFocusByKey s 0 0 ∧
          _onKeyUp s "7" true = moveFocusByKey s 0 0 ∧
          _onKeyUp s "5" true = moveFocusByKey s 0 0 ∧
          _onKeyUp s "0" true = moveFocusByKey s 0 0) := by
  refine ⟨fun s => ⟨rfl, rfl, rfl, rfl, rfl⟩, ?_, fun s => ⟨rfl, rfl, rfl, rfl⟩⟩
  intro s key
  unfold _onKeyUp
  rw [if_neg]
  rintro ⟨hfalse, -⟩
  cases hfalse

/-- Claim C8 counterexample: with platform focus on a non-grid element
(document.body), Enter is not ignored: the side-table lookup misses, the
non-null assertion is erased at runtime, and the activation callback is
invoked with an unresolved (undefined) datum, so state does change. -/
theorem enter_nonGrid_invokes_callback :
    (onKeyDownOnTable (initialBoard 2 2) "Enter").clicks = [(none, false)] ∧
    (initialBoard 2 2).clicks = [] := by decide

/-- Claim C8 (amended): a pointer-up whose target does not resolve through
the side-table is a silent no-op; Enter / digit 8 is ignored only when
there is no active element at all; when a non-grid element holds platform
focus, the handler instead invokes the activation callback once with an
unresolvable (none) cell datum, leaving all other state unchanged. -/
theorem unresolvable_target_handling :
    (∀ s eb c, onMouseUp s Active.other eb c = s ∧ onMouseUp s Active.null eb c = s) ∧
    (∀ s t eb c, s.buttons.get? t = none → onMouseUp s (Active.button t) eb c = s) ∧
    (∀ s, s.activeElement = Active.null →
      onKeyDownOnTable s "Enter" = s ∧ onKeyDownOnTable s "8" = s) ∧
    (∀ s, s.activeElement = Active.other →
      onKeyDownOnTable s "Enter" = { s with clicks := s.clicks ++ [(none, false)] } ∧
      onKeyDownOnTable s "8" = { s with clicks := s.clicks ++ [(none, false)] }) := by
  refine ⟨fun s eb c => ⟨rfl, rfl⟩, ?_, ?_, ?_⟩
  · intro s t eb c hnone
    unfold onMouseUp
    dsimp only
    rw [hnone]
  · intro s hnull
    constructor <;> · unfold onKeyDownOnTable; rw [if_pos (by simp), hnull]
  · intro s hother
    constructor
    all_goals
      unfold onKeyDownOnTable
      rw [if_pos (by simp)]
      conv_lhs => rw [hother]
      rfl

/-- Closed instance of the C8 amended theorem: a pointer-up on an index
past the grid is a no-op, and Enter with a null active element is
ignored. -/
theorem unresolvable_target_handling_witness :
    onMouseUp (initialBoard 2 2) (Active.button 9) 0 false = initialBoard 2 2 ∧
    onKeyDownOnTable { initialBoard 2 2 with activeElement := Active.null } "Enter" =
      { initialBoard 2 2 with activeElement := Active.null } :=
  ⟨unresolvable_target_handling.2.1 (initialBoard 2 2) 9 0 false (by decide),
    (unresolvable_target_handling.2.2.1
      { initialBoard 2 2 with activeElement := Active.null } rfl).1⟩

end Proxx
